import Mathlib

/-!
Shallow embedding of the DocVerify document-registry service
(`src/index.ts`).  The service stores `Document` records in a durable
ordered map (`StableBTreeMap<string, Document>`), modelled here as an
association list from keys to records, and exposes CRUD routes.

JavaScript object spreads (`{ ...defaults, ...req.body }`) are modelled by
`overlay`: the request body is a `PartialDoc` whose present fields win over
the record they are layered onto.  The host clock (`time()` from azle,
nanoseconds) is a `Nat` parameter; `getCurrentDate` performs the same scale
conversion as the source (`/ 1000_000` followed by `Date` truncation).
-/

namespace DocVerify

/-- A JavaScript `Date`, identified by its millisecond epoch value. -/
structure Date where
  millis : Nat
  deriving DecidableEq, Repr

/-- The `Document` record of `src/index.ts`.  `name`, `hash` and `owner`
have no generated default in the create handler, so a body that omits them
leaves them `undefined`; they are therefore `Option`-typed here.  `status`
and `createdAt` always receive a default, `updatedAt` defaults to `null`. -/
structure Document where
  id : String
  name : Option String
  hash : Option String
  owner : Option String
  status : String
  createdAt : Date
  updatedAt : Option Date
  deriving DecidableEq, Repr

/-- A JSON request body: a partial `Document`, each field optionally
present.  A present field overrides the corresponding field of whatever
record it is spread over. -/
structure PartialDoc where
  id : Option String := none
  name : Option String := none
  hash : Option String := none
  owner : Option String := none
  status : Option String := none
  createdAt : Option Date := none
  updatedAt : Option Date := none
  deriving DecidableEq, Repr

/-- The `StableBTreeMap<string, Document>` storage, as an association
list keyed by `id` strings. -/
abbrev Store := List (String × Document)

/-- `docStorage.get(key)`. -/
def getKV : Store → String → Option Document
  | [], _ => none
  | (k, v) :: t, k0 => if k = k0 then some v else getKV t k0

/-- `docStorage.insert(key, value)`: replace the entry for the key if
present, append it otherwise. -/
def insertKV : Store → String → Document → Store
  | [], k, v => [(k, v)]
  | (k0, v0) :: t, k, v => if k0 = k then (k, v) :: t else (k0, v0) :: insertKV t k v

/-- Removal of a key from the map. -/
def eraseKV (s : Store) (k : String) : Store :=
  s.filter (fun e => e.1 != k)

/-- `docStorage.remove(key)`: the removed value (if any) together with the
remaining map. -/
def removeKV (s : Store) (k : String) : Option Document × Store :=
  match getKV s k with
  | none => (none, s)
  | some v => (some v, eraseKV s k)

/-- The keys currently present in the store. -/
def keys (s : Store) : List String := s.map (fun e => e.1)

/-- `docStorage.values()`. -/
def values (s : Store) : List Document := s.map (fun e => e.2)

/-- `getCurrentDate()` from `src/index.ts`: the azle `time()` reading (in
nanoseconds) divided by `1000_000`, handed to the `Date` constructor
(which truncates toward zero, matching `Nat` division). -/
def getCurrentDate (timeNs : Nat) : Date := ⟨timeNs / 1000000⟩

/-- The JavaScript spread `{ ...d, ...b }`: fields present in `b` win,
fields absent from `b` keep the value from `d`. -/
def overlay (d : Document) (b : PartialDoc) : Document where
  id := b.id.getD d.id
  name := b.name.or d.name
  hash := b.hash.or d.hash
  owner := b.owner.or d.owner
  status := b.status.getD d.status
  createdAt := b.createdAt.getD d.createdAt
  updatedAt := b.updatedAt.or d.updatedAt

/-- An HTTP response: a single document, a document list, or an error
status with a plain-text message. -/
inductive Resp where
  | ok (d : Document)
  | docs (ds : List Document)
  | err (status : Nat) (msg : String)
  deriving DecidableEq, Repr

/-- `POST /documents`: build
`{ id: uuidv4(), createdAt: getCurrentDate(), updatedAt: null,
status: "pending", ...req.body }` and insert it under `document.id`.
`freshId` stands for the `uuidv4()` call, `nowNs` for the clock. -/
def postRoute (s : Store) (freshId : String) (nowNs : Nat) (body : PartialDoc) :
    Document × Store :=
  let document := overlay
    { id := freshId, name := none, hash := none, owner := none,
      status := "pending", createdAt := getCurrentDate nowNs, updatedAt := none } body
  (document, insertKV s document.id document)

/-- `GET /documents`. -/
def listRoute (s : Store) : Resp := .docs (values s)

/-- `GET /documents/:id`: 404 when absent. -/
def getRoute (s : Store) (documentId : String) : Resp :=
  match getKV s documentId with
  | none => .err 404 ("Document with id=" ++ documentId ++ " not found.")
  | some d => .ok d

/-- `PUT /documents/:id`: 400 when absent; otherwise build
`{ ...document, ...req.body, updatedAt: getCurrentDate() }` and insert it
under `document.id` — the id field of the *fetched* record, not the path
id.  (Error message rendered without the source's apostrophe.) -/
def putRoute (s : Store) (documentId : String) (body : PartialDoc) (nowNs : Nat) :
    Resp × Store :=
  match getKV s documentId with
  | none => (.err 400 ("Could not update document with id=" ++ documentId ++ ". Not found."), s)
  | some document =>
    let updatedDocument := { overlay document body with updatedAt := some (getCurrentDate nowNs) }
    (.ok updatedDocument, insertKV s document.id updatedDocument)

/-- `DELETE /documents/:id`: `remove` first, 400 when nothing was there. -/
def deleteRoute (s : Store) (documentId : String) : Resp × Store :=
  match removeKV s documentId with
  | (none, s1) => (.err 400 ("Could not delete document with id=" ++ documentId ++ ". Not found."), s1)
  | (some d, s1) => (.ok d, s1)

/-- One client request against the service (the state-changing data of the
five routes; the two GET routes never mutate the store). -/
inductive Op where
  | post (freshId : String) (nowNs : Nat) (body : PartialDoc)
  | put (documentId : String) (body : PartialDoc) (nowNs : Nat)
  | del (documentId : String)
  | getOne (documentId : String)
  | getAll
  deriving DecidableEq, Repr

/-- The store after handling one request. -/
def step (s : Store) : Op → Store
  | .post f n b => (postRoute s f n b).2
  | .put p b n => (putRoute s p b n).2
  | .del p => (deleteRoute s p).2
  | .getOne _ => s
  | .getAll => s

/-- The store after handling a sequence of requests. -/
def run (s : Store) (ops : List Op) : Store := ops.foldl step s

/-- The generated ids consumed by the create requests of a trace, in
order. -/
def postIds (ops : List Op) : List String :=
  ops.filterMap (fun op => match op with | .post f _ _ => some f | _ => none)

/-- The request body carries no `id` field. -/
def idFreeOp : Op → Bool
  | .post _ _ b => b.id.isNone
  | .put _ b _ => b.id.isNone
  | _ => true

/-- The request body carries no `createdAt` field. -/
def createdAtFreeOp : Op → Bool
  | .post _ _ b => b.createdAt.isNone
  | .put _ b _ => b.createdAt.isNone
  | _ => true

/-- Store well-formedness: keys are pairwise distinct and every record's
`id` field equals the key it is stored under — so there is exactly one
document per id. -/
def Inv (s : Store) : Prop :=
  (keys s).Nodup ∧ ∀ e ∈ s, e.2.id = e.1

instance (s : Store) : Decidable (Inv s) :=
  inferInstanceAs (Decidable (_ ∧ _))

/-! ### Association-list store lemmas -/

theorem keys_cons (k0 : String) (v0 : Document) (t : Store) :
    keys ((k0, v0) :: t) = k0 :: keys t := rfl

theorem getKV_insertKV_self (s : Store) (k : String) (v : Document) :
    getKV (insertKV s k v) k = some v := by
  induction s with
  | nil => simp [insertKV, getKV]
  | cons e t ih =>
    obtain ⟨k0, v0⟩ := e
    by_cases h : k0 = k
    · simp [insertKV, h, getKV]
    · simp [insertKV, h, getKV, ih]

theorem getKV_insertKV_ne (s : Store) (k k0 : String) (v : Document) (h : k0 ≠ k) :
    getKV (insertKV s k v) k0 = getKV s k0 := by
  induction s with
  | nil => simp [insertKV, getKV, Ne.symm h]
  | cons e t ih =>
    obtain ⟨k1, v1⟩ := e
    by_cases h1 : k1 = k
    · subst h1
      simp [insertKV, getKV, Ne.symm h]
    · simp only [insertKV, if_neg h1, getKV]
      by_cases h2 : k1 = k0 <;> simp [h2, ih]

theorem getKV_mem (s : Store) (k : String) (v : Document) (h : getKV s k = some v) :
    (k, v) ∈ s := by
  induction s with
  | nil => simp [getKV] at h
  | cons e t ih =>
    obtain ⟨k0, v0⟩ := e
    by_cases h0 : k0 = k
    · subst h0
      simp [getKV] at h
      simp [h]
    · simp only [getKV, if_neg h0] at h
      exact List.mem_cons_of_mem _ (ih h)

theorem mem_keys_of_getKV (s : Store) (k : String) (v : Document)
    (h : getKV s k = some v) : k ∈ keys s := by
  have := getKV_mem s k v h
  exact List.mem_map.2 ⟨(k, v), this, rfl⟩

theorem getKV_eq_none_of_not_mem_keys (s : Store) (k : String) (h : k ∉ keys s) :
    getKV s k = none := by
  induction s with
  | nil => rfl
  | cons e t ih =>
    obtain ⟨k0, v0⟩ := e
    rw [keys_cons, List.mem_cons] at h
    push_neg at h
    simp [getKV, Ne.symm h.1, ih h.2]

theorem getKV_isSome_of_mem_keys (s : Store) (k : String) (h : k ∈ keys s) :
    (getKV s k).isSome := by
  induction s with
  | nil => simp [keys] at h
  | cons e t ih =>
    obtain ⟨k0, v0⟩ := e
    by_cases h0 : k0 = k
    · simp [getKV, h0]
    · rw [keys_cons, List.mem_cons] at h
      rcases h with h | h
      · exact absurd h.symm h0
      · simp [getKV, h0, ih h]

theorem keys_insertKV_of_mem (s : Store) (k : String) (v : Document) (h : k ∈ keys s) :
    keys (insertKV s k v) = keys s := by
  induction s with
  | nil => simp [keys] at h
  | cons e t ih =>
    obtain ⟨k0, v0⟩ := e
    by_cases h0 : k0 = k
    · simp [insertKV, h0, keys]
    · rw [keys_cons, List.mem_cons] at h
      rcases h with h | h
      · exact absurd h.symm h0
      · simp only [insertKV, if_neg h0, keys_cons, ih h]

theorem keys_insertKV_of_not_mem (s : Store) (k : String) (v : Document) (h : k ∉ keys s) :
    keys (insertKV s k v) = keys s ++ [k] := by
  induction s with
  | nil => simp [insertKV, keys]
  | cons e t ih =>
    obtain ⟨k0, v0⟩ := e
    rw [keys_cons, List.mem_cons] at h
    push_neg at h
    simp only [insertKV, if_neg (Ne.symm h.1), keys_cons, ih h.2, List.cons_append]

theorem mem_insertKV (s : Store) (k : String) (v : Document) (e : String × Document)
    (h : e ∈ insertKV s k v) : e ∈ s ∨ e = (k, v) := by
  induction s with
  | nil => simp [insertKV] at h; simp [h]
  | cons e0 t ih =>
    obtain ⟨k0, v0⟩ := e0
    by_cases h0 : k0 = k
    · simp [insertKV, h0] at h
      rcases h with h | h
      · right; simp [h]
      · left; exact List.mem_cons_of_mem _ h
    · simp only [insertKV, if_neg h0, List.mem_cons] at h
      rcases h with h | h
      · left; simp [h]
      · rcases ih h with h1 | h1
        · left; exact List.mem_cons_of_mem _ h1
        · right; exact h1

theorem getKV_eraseKV_self (s : Store) (k : String) :
    getKV (eraseKV s k) k = none := by
  induction s with
  | nil => rfl
  | cons e t ih =>
    obtain ⟨k0, v0⟩ := e
    by_cases h0 : k0 = k
    · simpa [eraseKV, h0] using ih
    · simpa [eraseKV, getKV, h0] using ih

theorem getKV_eraseKV_ne (s : Store) (k k0 : String) (h : k0 ≠ k) :
    getKV (eraseKV s k) k0 = getKV s k0 := by
  induction s with
  | nil => rfl
  | cons e t ih =>
    obtain ⟨k1, v1⟩ := e
    simp only [eraseKV, List.filter_cons] at ih ⊢
    by_cases h1 : k1 = k
    · simp [h1, getKV, Ne.symm h, ih]
    · by_cases h2 : k1 = k0 <;> simp [bne_iff_ne, h1, h2, getKV, ih, h]

theorem keys_eraseKV_sublist (s : Store) (k : String) :
    (keys (eraseKV s k)).Sublist (keys s) := by
  simpa [keys, eraseKV] using (List.filter_sublist s).map (fun e => e.1)

theorem mem_eraseKV (s : Store) (k : String) (e : String × Document)
    (h : e ∈ eraseKV s k) : e ∈ s :=
  List.mem_of_mem_filter h

/-! ### Preservation of the store invariant by the route handlers -/

theorem Inv_insertKV (s : Store) (k : String) (v : Document) (hInv : Inv s)
    (hv : v.id = k) : Inv (insertKV s k v) := by
  constructor
  · by_cases h : k ∈ keys s
    · rw [keys_insertKV_of_mem s k v h]
      exact hInv.1
    · rw [keys_insertKV_of_not_mem s k v h]
      simp [List.nodup_append, hInv.1, h]
  · intro e he
    rcases mem_insertKV s k v e he with h | h
    · exact hInv.2 e h
    · subst h
      exact hv

theorem Inv_eraseKV (s : Store) (k : String) (hInv : Inv s) : Inv (eraseKV s k) :=
  ⟨hInv.1.sublist (keys_eraseKV_sublist s k),
   fun e he => hInv.2 e (mem_eraseKV s k e he)⟩

theorem postRoute_doc_id (s : Store) (f : String) (n : Nat) (b : PartialDoc)
    (hb : b.id = none) : (postRoute s f n b).1.id = f := by
  simp [postRoute, overlay, hb]

theorem run_nil (s : Store) : run s [] = s := rfl

theorem run_cons (s : Store) (op : Op) (t : List Op) :
    run s (op :: t) = run (step s op) t := rfl

theorem run_append (s : Store) (l1 l2 : List Op) :
    run s (l1 ++ l2) = run (run s l1) l2 := by
  simp [run, List.foldl_append]

theorem postIds_cons (op : Op) (t : List Op) :
    postIds (op :: t) = postIds [op] ++ postIds t := by
  cases op <;> simp [postIds]

theorem postIds_append (l1 l2 : List Op) :
    postIds (l1 ++ l2) = postIds l1 ++ postIds l2 := by
  simp [postIds]

theorem Inv_step (s : Store) (op : Op) (hInv : Inv s) (hb : idFreeOp op = true) :
    Inv (step s op) := by
  cases op with
  | post f n b =>
    exact Inv_insertKV _ _ _ hInv rfl
  | put p b n =>
    cases hg : getKV s p with
    | none => simpa [step, putRoute, hg] using hInv
    | some document =>
      have hdocid : document.id = p := hInv.2 (p, document) (getKV_mem s p document hg)
      have hbid : b.id = none := by
        simpa [idFreeOp, Option.isNone_iff_eq_none] using hb
      have hstep : step s (.put p b n) =
          insertKV s document.id
            { overlay document b with updatedAt := some (getCurrentDate n) } := by
        simp [step, putRoute, hg]
      rw [hstep]
      exact Inv_insertKV _ _ _ hInv (by simp [overlay, hbid])
  | del p =>
    cases hg : getKV s p with
    | none => simpa [step, deleteRoute, removeKV, hg] using hInv
    | some document =>
      have hstep : step s (.del p) = eraseKV s p := by
        simp [step, deleteRoute, removeKV, hg]
      rw [hstep]
      exact Inv_eraseKV s p hInv
  | getOne p => exact hInv
  | getAll => exact hInv

theorem keys_step_mem (s : Store) (op : Op) (x : String) (hInv : Inv s)
    (hb : idFreeOp op = true) (hx : x ∈ keys (step s op)) :
    x ∈ keys s ∨ x ∈ postIds [op] := by
  cases op with
  | post f n b =>
    have hbid : b.id = none := by
      simpa [idFreeOp, Option.isNone_iff_eq_none] using hb
    have hid : (postRoute s f n b).1.id = f := postRoute_doc_id s f n b hbid
    have hstep : step s (.post f n b) =
        insertKV s (postRoute s f n b).1.id (postRoute s f n b).1 := rfl
    rw [hstep, hid] at hx
    by_cases hf : f ∈ keys s
    · rw [keys_insertKV_of_mem s f _ hf] at hx
      exact Or.inl hx
    · rw [keys_insertKV_of_not_mem s f _ hf] at hx
      rcases List.mem_append.1 hx with h | h
      · exact Or.inl h
      · right
        simpa [postIds] using List.mem_singleton.1 h
  | put p b n =>
    cases hg : getKV s p with
    | none =>
      rw [show step s (.put p b n) = s by simp [step, putRoute, hg]] at hx
      exact Or.inl hx
    | some document =>
      have hdocid : document.id = p := hInv.2 (p, document) (getKV_mem s p document hg)
      have hstep : step s (.put p b n) =
          insertKV s document.id
            { overlay document b with updatedAt := some (getCurrentDate n) } := by
        simp [step, putRoute, hg]
      rw [hstep, hdocid] at hx
      rw [keys_insertKV_of_mem s p _ (mem_keys_of_getKV s p document hg)] at hx
      exact Or.inl hx
  | del p =>
    cases hg : getKV s p with
    | none =>
      rw [show step s (.del p) = s by simp [step, deleteRoute, removeKV, hg]] at hx
      exact Or.inl hx
    | some document =>
      rw [show step s (.del p) = eraseKV s p by
        simp [step, deleteRoute, removeKV, hg]] at hx
      exact Or.inl ((keys_eraseKV_sublist s p).subset hx)
  | getOne p => exact Or.inl hx
  | getAll => exact Or.inl hx

theorem Inv_run (s : Store) (ops : List Op) (hInv : Inv s)
    (hb : ops.all idFreeOp = true) : Inv (run s ops) := by
  induction ops generalizing s with
  | nil => exact hInv
  | cons op t ih =>
    simp only [List.all_cons, Bool.and_eq_true] at hb
    rw [run_cons]
    exact ih (step s op) (Inv_step s op hInv hb.1) hb.2

theorem keys_run_mem (s : Store) (ops : List Op) (x : String) (hInv : Inv s)
    (hb : ops.all idFreeOp = true) (hx : x ∈ keys (run s ops)) :
    x ∈ keys s ∨ x ∈ postIds ops := by
  induction ops generalizing s with
  | nil => exact Or.inl hx
  | cons op t ih =>
    simp only [List.all_cons, Bool.and_eq_true] at hb
    rw [run_cons] at hx
    rcases ih (step s op) (Inv_step s op hInv hb.1) hb.2 hx with h | h
    · rcases keys_step_mem s op x hInv hb.1 h with h1 | h1
      · exact Or.inl h1
      · right
        rw [postIds_cons]
        exact List.mem_append.2 (Or.inl h1)
    · right
      rw [postIds_cons]
      exact List.mem_append.2 (Or.inr h)

/-! ### Claim C1 -/

/-- Claim C1 (amended): provided the identifier generator yields non-empty,
pairwise-distinct ids and no request body carries an `id` field, then for
every trace of requests from the empty store: (1) every reachable store
state satisfies `Inv` — pairwise-distinct keys, each record's `id` equal to
its key, hence exactly one document per id; (2) every create response `id`
is the generated id, is non-empty, and is not a key of (so not the id of
any record in) the store at that moment; and (3) an id absent from the
store after once being present is never present again — ids are not reused
after deletion.  (The original claim, without the two provisos, is refuted
by `create_id_unique_cex`: a create body may carry the `id` of an existing
record.) -/
theorem create_id_unique (ops : List Op)
    (hNodup : (postIds ops).Nodup)
    (hNE : ∀ f ∈ postIds ops, f ≠ "")
    (hIdFree : ops.all idFreeOp = true) :
    (∀ l1 l2, ops = l1 ++ l2 → Inv (run [] l1)) ∧
    (∀ l1 f n b l2, ops = l1 ++ Op.post f n b :: l2 →
      (postRoute (run [] l1) f n b).1.id = f ∧ f ≠ "" ∧ f ∉ keys (run [] l1)) ∧
    (∀ k l1 l2 l3 l4, ops = l1 ++ l2 ++ l3 ++ l4 →
      k ∈ keys (run [] l1) → k ∉ keys (run [] (l1 ++ l2)) →
      k ∉ keys (run [] (l1 ++ l2 ++ l3))) := by
  have hInvNil : Inv ([] : Store) := ⟨List.nodup_nil, by simp⟩
  have hKeysNil : keys ([] : Store) = [] := rfl
  refine ⟨?_, ?_, ?_⟩
  · intro l1 l2 heq
    subst heq
    simp only [List.all_append, Bool.and_eq_true] at hIdFree
    exact Inv_run [] l1 hInvNil hIdFree.1
  · intro l1 f n b l2 heq
    subst heq
    simp only [List.all_append, List.all_cons, Bool.and_eq_true] at hIdFree
    have hbid : b.id = none := by
      simpa [idFreeOp, Option.isNone_iff_eq_none] using hIdFree.2.1
    have hpost : postIds (l1 ++ Op.post f n b :: l2) =
        postIds l1 ++ f :: postIds l2 := by
      rw [postIds_append, postIds_cons]
      simp [postIds]
    rw [hpost] at hNodup hNE
    refine ⟨postRoute_doc_id _ f n b hbid, hNE f (by simp), ?_⟩
    intro hmem
    rcases keys_run_mem [] l1 f hInvNil hIdFree.1 hmem with h | h
    · rw [hKeysNil] at h
      exact absurd h (List.not_mem_nil f)
    · have hdisj := (List.nodup_append.1 hNodup).2.2
      exact hdisj h (by simp)
  · intro k l1 l2 l3 l4 heq hk1 hk2 hk3
    subst heq
    simp only [List.all_append, Bool.and_eq_true] at hIdFree
    have hk1' : k ∈ postIds l1 := by
      rcases keys_run_mem [] l1 k hInvNil hIdFree.1.1.1 hk1 with h | h
      · rw [hKeysNil] at h
        exact absurd h (List.not_mem_nil k)
      · exact h
    have hall12 : (l1 ++ l2).all idFreeOp = true := by
      simp [List.all_append, hIdFree.1.1.1, hIdFree.1.1.2]
    have hInv12 : Inv (run [] (l1 ++ l2)) := Inv_run [] (l1 ++ l2) hInvNil hall12
    rw [run_append] at hk3
    have hk3' : k ∈ postIds l3 := by
      rcases keys_run_mem (run [] (l1 ++ l2)) l3 k hInv12 hIdFree.1.2 hk3 with h | h
      · exact absurd h hk2
      · exact h
    have hsplit : postIds (l1 ++ l2 ++ l3 ++ l4) =
        (postIds l1 ++ postIds l2 ++ postIds l3) ++ postIds l4 := by
      simp [postIds_append]
    rw [hsplit] at hNodup
    have hnd123 := (List.nodup_append.1 hNodup).1
    have hdisj := (List.nodup_append.1 hnd123).2.2
    exact hdisj (List.mem_append.2 (Or.inl hk1')) hk3'

/-- Witness for `create_id_unique`: on the concrete trace create `"a"`,
delete `"a"`, create `"b"`, the id `"a"` does not reappear. -/
theorem create_id_unique_witness :
    "a" ∉ keys (run []
      ([Op.post "a" 0 {}] ++ [Op.del "a"] ++ [Op.post "b" 1 {}] ++ [])) :=
  (create_id_unique [Op.post "a" 0 {}, Op.del "a", Op.post "b" 1 {}]
      (by decide) (by decide) (by decide)).2.2 "a"
    [Op.post "a" 0 {}] [Op.del "a"] [Op.post "b" 1 {}] [] rfl
    (by decide) (by decide)

/-- Counterexample to Claim C1 as stated: the create handler spreads the
request body over the generated defaults, so a create request whose body
carries `id := "a"` — while a record with id `"a"` is already stored —
responds with id `"a"`, the id of another record already in the store
(and silently overwrites it). -/
theorem create_id_unique_cex :
    "a" ∈ keys ((postRoute [] "a" 0 {}).2) ∧
    (postRoute ((postRoute [] "a" 0 {}).2) "b" 5 { id := some "a" }).1.id = "a" := by
  decide

/-! ### Claim C2 -/

theorem createdAt_run_aux (ops : List Op) (s : Store) (k : String) (c : Date)
    (hInv : Inv s)
    (hIdFree : ops.all idFreeOp = true)
    (hCAFree : ops.all createdAtFreeOp = true)
    (hk : ∀ f ∈ postIds ops, f ≠ k)
    (hsame : ∀ d, getKV s k = some d → d.createdAt = c) :
    ∀ d, getKV (run s ops) k = some d → d.createdAt = c := by
  induction ops generalizing s with
  | nil => exact hsame
  | cons op t ih =>
    simp only [List.all_cons, Bool.and_eq_true] at hIdFree hCAFree
    rw [postIds_cons] at hk
    have hkt : ∀ f ∈ postIds t, f ≠ k := fun f hf =>
      hk f (List.mem_append.2 (Or.inr hf))
    rw [run_cons]
    apply ih (step s op) (Inv_step s op hInv hIdFree.1) hIdFree.2 hCAFree.2 hkt
    cases op with
    | post f n b =>
      have hbid : b.id = none := by
        simpa [idFreeOp, Option.isNone_iff_eq_none] using hIdFree.1
      have hfk : f ≠ k := hk f (by simp [postIds])
      have hstep : step s (.post f n b) =
          insertKV s (postRoute s f n b).1.id (postRoute s f n b).1 := rfl
      intro d hd
      rw [hstep, postRoute_doc_id s f n b hbid,
        getKV_insertKV_ne s f k _ (Ne.symm hfk)] at hd
      exact hsame d hd
    | put p b n =>
      cases hg : getKV s p with
      | none =>
        intro d hd
        rw [show step s (.put p b n) = s by simp [step, putRoute, hg]] at hd
        exact hsame d hd
      | some document =>
        have hdocid : document.id = p := hInv.2 (p, document) (getKV_mem s p document hg)
        have hbca : b.createdAt = none := by
          simpa [createdAtFreeOp, Option.isNone_iff_eq_none] using hCAFree.1
        have hstep : step s (.put p b n) =
            insertKV s document.id
              { overlay document b with updatedAt := some (getCurrentDate n) } := by
          simp [step, putRoute, hg]
        intro d hd
        rw [hstep, hdocid] at hd
        by_cases hpk : p = k
        · subst hpk
          rw [getKV_insertKV_self] at hd
          cases hd
          simp only [overlay, hbca, Option.getD_none]
          exact hsame document hg
        · rw [getKV_insertKV_ne s p k _ (Ne.symm hpk)] at hd
          exact hsame d hd
    | del p =>
      cases hg : getKV s p with
      | none =>
        intro d hd
        rw [show step s (.del p) = s by simp [step, deleteRoute, removeKV, hg]] at hd
        exact hsame d hd
      | some document =>
        intro d hd
        rw [show step s (.del p) = eraseKV s p by
          simp [step, deleteRoute, removeKV, hg]] at hd
        by_cases hpk : p = k
        · subst hpk
          rw [getKV_eraseKV_self] at hd
          exact absurd hd (by simp)
        · rw [getKV_eraseKV_ne s p k (Ne.symm hpk)] at hd
          exact hsame d hd
    | getOne p => exact hsame
    | getAll => exact hsame

/-- Claim C2 (amended): a stored record's `createdAt` never changes under
any later sequence of requests, provided no request body carries an `id`
or a `createdAt` field and the id generator never re-issues an id already
present in the store.  In particular every update whose body omits
`createdAt` leaves it at its value from insertion.  (The original claim —
"for every update body" — is refuted by `createdAt_immutable_cex`: the
update handler spreads the body over the record, so a body carrying a
`createdAt` field overwrites it.) -/
theorem createdAt_immutable (s : Store) (ops : List Op) (k : String)
    (d d' : Document)
    (hInv : Inv s)
    (hIdFree : ops.all idFreeOp = true)
    (hCAFree : ops.all createdAtFreeOp = true)
    (hFresh : ∀ f ∈ postIds ops, f ∉ keys s)
    (hk : getKV s k = some d)
    (hk' : getKV (run s ops) k = some d') :
    d'.createdAt = d.createdAt := by
  apply createdAt_run_aux ops s k d.createdAt hInv hIdFree hCAFree ?_ ?_ d' hk'
  · intro f hf hfk
    subst hfk
    exact hFresh f hf (mem_keys_of_getKV s f d hk)
  · intro d0 h0
    rw [hk] at h0
    cases h0
    rfl

/-- Witness for `createdAt_immutable`: a concrete status update leaves
`createdAt` at its insertion value `1`. -/
theorem createdAt_immutable_witness :
    (⟨"a", some "A", none, none, "authenticated", ⟨1⟩, some ⟨5⟩⟩ : Document).createdAt =
      (⟨"a", some "A", none, none, "pending", ⟨1⟩, none⟩ : Document).createdAt :=
  createdAt_immutable [("a", ⟨"a", some "A", none, none, "pending", ⟨1⟩, none⟩)]
    [Op.put "a" { status := some "authenticated" } 5000000] "a"
    ⟨"a", some "A", none, none, "pending", ⟨1⟩, none⟩
    ⟨"a", some "A", none, none, "authenticated", ⟨1⟩, some ⟨5⟩⟩
    (by decide) (by decide) (by decide) (by decide) (by decide) (by decide)

/-- Counterexample to Claim C2 as stated: an update whose body carries
`createdAt := 99` changes the stored record's `createdAt` from `1` to
`99`, both in the response and in the store. -/
theorem createdAt_immutable_cex :
    (putRoute [("a", ⟨"a", none, none, none, "pending", ⟨1⟩, none⟩)] "a"
        { createdAt := some ⟨99⟩ } 0).1 =
      Resp.ok ⟨"a", none, none, none, "pending", ⟨99⟩, some ⟨0⟩⟩ ∧
    getKV (putRoute [("a", ⟨"a", none, none, none, "pending", ⟨1⟩, none⟩)] "a"
        { createdAt := some ⟨99⟩ } 0).2 "a" =
      some ⟨"a", none, none, none, "pending", ⟨99⟩, some ⟨0⟩⟩ ∧
    (⟨99⟩ : Date) ≠ ⟨1⟩ := by
  decide

/-! ### Claim C3 -/

/-- Claim C3 (amended): an update on an id with an existing record
responds with the existing record overlaid field-by-field with the
caller's body (caller-supplied fields win, omitted fields keep their prior
values), with `updatedAt` then set to the current clock time; the merged
record is stored under the *fetched record's* `id` field — which is the
path id whenever the record's `id` field equals its key, but not in
general.  (The original "stored under the same id" is refuted by
`update_merge_cex`: after an update whose body carried a different `id`,
a further update stores the merged record under that other id.) -/
theorem update_merge (s : Store) (p : String) (b : PartialDoc) (ns : Nat)
    (document : Document) (h : getKV s p = some document) :
    ∃ u, putRoute s p b ns = (.ok u, insertKV s document.id u) ∧
      u.id = b.id.getD document.id ∧
      u.name = b.name.or document.name ∧
      u.hash = b.hash.or document.hash ∧
      u.owner = b.owner.or document.owner ∧
      u.status = b.status.getD document.status ∧
      u.createdAt = b.createdAt.getD document.createdAt ∧
      u.updatedAt = some (getCurrentDate ns) ∧
      (document.id = p → getKV (putRoute s p b ns).2 p = some u) := by
  refine ⟨{ overlay document b with updatedAt := some (getCurrentDate ns) },
    by simp [putRoute, h], rfl, rfl, rfl, rfl, rfl, rfl, rfl, ?_⟩
  intro hid
  have h2 : (putRoute s p b ns).2 =
      insertKV s p { overlay document b with updatedAt := some (getCurrentDate ns) } := by
    simp [putRoute, h, hid]
  rw [h2]
  exact getKV_insertKV_self _ _ _

/-- Witness for `update_merge`: a concrete status update on a stored
record merges the body over it and stores the result at the path id. -/
theorem update_merge_witness :
    ∃ u, putRoute [("a", ⟨"a", some "A", none, none, "pending", ⟨0⟩, none⟩)] "a"
        { status := some "authenticated" } 1000000 =
      (.ok u, insertKV [("a", ⟨"a", some "A", none, none, "pending", ⟨0⟩, none⟩)] "a" u) ∧
      u.id = "a" ∧ u.name = some "A" ∧ u.hash = none ∧ u.owner = none ∧
      u.status = "authenticated" ∧ u.createdAt = ⟨0⟩ ∧ u.updatedAt = some ⟨1⟩ ∧
      getKV (putRoute [("a", ⟨"a", some "A", none, none, "pending", ⟨0⟩, none⟩)] "a"
        { status := some "authenticated" } 1000000).2 "a" = some u := by
  obtain ⟨u, h1, h2, h3, h4, h5, h6, h7, h8, h9⟩ :=
    update_merge [("a", ⟨"a", some "A", none, none, "pending", ⟨0⟩, none⟩)] "a"
      { status := some "authenticated" } 1000000
      ⟨"a", some "A", none, none, "pending", ⟨0⟩, none⟩ (by decide)
  exact ⟨u, h1, h2, h3, h4, h5, h6, h7, h8, h9 rfl⟩

/-- Counterexample to Claim C3 as stated: create a record with id `"a"`,
update it with a body carrying `id := "z"` (the record at key `"a"` now
has `id` field `"z"`), then update id `"a"` again.  The second update's
merged record is NOT stored under the requested id `"a"` — the record at
`"a"` stays stale while the merge result lands under key `"z"`. -/
theorem update_merge_cex :
    (putRoute (putRoute (postRoute [] "a" 0 {}).2 "a" { id := some "z" } 0).2
        "a" {} 5000000).1 =
      Resp.ok ⟨"z", none, none, none, "pending", ⟨0⟩, some ⟨5⟩⟩ ∧
    getKV (putRoute (putRoute (postRoute [] "a" 0 {}).2 "a" { id := some "z" } 0).2
        "a" {} 5000000).2 "a" ≠
      some ⟨"z", none, none, none, "pending", ⟨0⟩, some ⟨5⟩⟩ ∧
    getKV (putRoute (putRoute (postRoute [] "a" 0 {}).2 "a" { id := some "z" } 0).2
        "a" {} 5000000).2 "z" =
      some ⟨"z", none, none, none, "pending", ⟨0⟩, some ⟨5⟩⟩ := by
  decide

/-! ### Claim C4 -/

/-- Claim C4: a create whose body has no `status` field stores status
`"pending"`; a caller-supplied `status` overrides the default, because the
body is spread over the generated defaults.  The created record is stored
unchanged under its id. -/
theorem create_status_default (s : Store) (f : String) (ns : Nat) (b : PartialDoc) :
    (b.status = none → (postRoute s f ns b).1.status = "pending") ∧
    (∀ st, b.status = some st → (postRoute s f ns b).1.status = st) ∧
    getKV (postRoute s f ns b).2 (postRoute s f ns b).1.id =
      some (postRoute s f ns b).1 := by
  refine ⟨?_, ?_, ?_⟩
  · intro h
    simp [postRoute, overlay, h]
  · intro st h
    simp [postRoute, overlay, h]
  · exact getKV_insertKV_self s (postRoute s f ns b).1.id (postRoute s f ns b).1

/-- Witness for `create_status_default`: with no `status` in the body the
stored status is `"pending"`; with `status := "legalized"` it is
`"legalized"`. -/
theorem create_status_default_witness :
    (postRoute [] "a" 0 {}).1.status = "pending" ∧
    (postRoute [] "b" 0 { status := some "legalized" }).1.status = "legalized" :=
  ⟨(create_status_default [] "a" 0 {}).1 rfl,
   (create_status_default [] "b" 0 { status := some "legalized" }).2.1 "legalized" rfl⟩

/-! ### Claim C5 -/

/-- Claim C5 (amended): a Get-by-id immediately after a create returns a
record equal to the create response, for every body; and the response's
`updatedAt` is absent provided the create body did not itself carry an
`updatedAt` field.  (The unconditional "updatedAt is still absent" is
refuted by `create_get_roundtrip_cex`: the body is spread over the
`updatedAt: null` default, so a body carrying `updatedAt` overrides it.) -/
theorem create_get_roundtrip (s : Store) (f : String) (ns : Nat) (b : PartialDoc) :
    getRoute (postRoute s f ns b).2 (postRoute s f ns b).1.id =
      .ok (postRoute s f ns b).1 ∧
    (b.updatedAt = none → (postRoute s f ns b).1.updatedAt = none) := by
  constructor
  · have hg := getKV_insertKV_self s (postRoute s f ns b).1.id (postRoute s f ns b).1
    have h2 : getKV (postRoute s f ns b).2 (postRoute s f ns b).1.id =
        some (postRoute s f ns b).1 := hg
    simp [getRoute, h2]
  · intro h
    simp [postRoute, overlay, h]

/-- Witness for `create_get_roundtrip`: fetching the freshly created
record returns the create response and `updatedAt` is absent. -/
theorem create_get_roundtrip_witness :
    getRoute (postRoute [] "a" 0 { name := some "A" }).2
        (postRoute [] "a" 0 { name := some "A" }).1.id =
      Resp.ok (postRoute [] "a" 0 { name := some "A" }).1 ∧
    (postRoute [] "a" 0 { name := some "A" }).1.updatedAt = none :=
  ⟨(create_get_roundtrip [] "a" 0 { name := some "A" }).1,
   (create_get_roundtrip [] "a" 0 { name := some "A" }).2 rfl⟩

/-- Counterexample to Claim C5 as stated: a create body carrying
`updatedAt := 7` yields a create response whose `updatedAt` is already
present, not absent. -/
theorem create_get_roundtrip_cex :
    (postRoute [] "a" 0 { updatedAt := some ⟨7⟩ }).1.updatedAt = some ⟨7⟩ ∧
    some (⟨7⟩ : Date) ≠ (none : Option Date) := by
  decide

/-! ### Claim C6 -/

theorem overlay_overlay (d : Document) (b : PartialDoc) (x y : Option Date) :
    { overlay { overlay d b with updatedAt := x } b with updatedAt := y } =
      { overlay d b with updatedAt := y } := by
  obtain ⟨bid, bname, bhash, bowner, bstat, bca, bua⟩ := b
  cases bid <;> cases bname <;> cases bhash <;> cases bowner <;>
    cases bstat <;> cases bca <;> cases bua <;> rfl

/-- Claim C6: applying the same update body twice in succession to an
existing record yields two `200` responses that agree on every field
except `updatedAt` — the second response is the first with only its
timestamp replaced.  This holds for every body, including bodies carrying
`id` or `createdAt` fields. -/
theorem putRoute_some (s : Store) (p : String) (b : PartialDoc) (n : Nat)
    (document : Document) (h : getKV s p = some document) :
    putRoute s p b n =
      (.ok { overlay document b with updatedAt := some (getCurrentDate n) },
       insertKV s document.id
         { overlay document b with updatedAt := some (getCurrentDate n) }) := by
  simp [putRoute, h]

theorem update_idempotent (s : Store) (p : String) (b : PartialDoc) (n1 n2 : Nat)
    (document : Document) (h : getKV s p = some document) :
    ∃ r1 r2,
      (putRoute s p b n1).1 = .ok r1 ∧
      (putRoute (putRoute s p b n1).2 p b n2).1 = .ok r2 ∧
      r2 = { r1 with updatedAt := some (getCurrentDate n2) } := by
  have h1 := putRoute_some s p b n1 document h
  have hfst : (putRoute s p b n1).1 =
      .ok { overlay document b with updatedAt := some (getCurrentDate n1) } := by
    rw [h1]
  have hsnd : (putRoute s p b n1).2 =
      insertKV s document.id
        { overlay document b with updatedAt := some (getCurrentDate n1) } := by
    rw [h1]
  by_cases hid : document.id = p
  · have hget : getKV (putRoute s p b n1).2 p =
        some { overlay document b with updatedAt := some (getCurrentDate n1) } := by
      rw [hsnd, hid]
      exact getKV_insertKV_self _ _ _
    refine ⟨{ overlay document b with updatedAt := some (getCurrentDate n1) },
      { overlay { overlay document b with updatedAt := some (getCurrentDate n1) } b with
          updatedAt := some (getCurrentDate n2) }, hfst, ?_, ?_⟩
    · rw [putRoute_some (putRoute s p b n1).2 p b n2 _ hget]
    · exact overlay_overlay document b _ _
  · have hget : getKV (putRoute s p b n1).2 p = some document := by
      rw [hsnd, getKV_insertKV_ne s document.id p _ (fun h0 => hid h0.symm)]
      exact h
    refine ⟨{ overlay document b with updatedAt := some (getCurrentDate n1) },
      { overlay document b with updatedAt := some (getCurrentDate n2) }, hfst, ?_, rfl⟩
    rw [putRoute_some (putRoute s p b n1).2 p b n2 _ hget]

/-- Witness for `update_idempotent`: the same status-update applied twice
to a concrete record differs between the two responses only in
`updatedAt`. -/
theorem update_idempotent_witness :
    ∃ r1 r2,
      (putRoute [("a", ⟨"a", none, none, none, "pending", ⟨0⟩, none⟩)] "a"
          { status := some "authenticated" } 1000000).1 = Resp.ok r1 ∧
      (putRoute (putRoute [("a", ⟨"a", none, none, none, "pending", ⟨0⟩, none⟩)] "a"
          { status := some "authenticated" } 1000000).2 "a"
          { status := some "authenticated" } 2000000).1 = Resp.ok r2 ∧
      r2 = { r1 with updatedAt := some (getCurrentDate 2000000) } :=
  update_idempotent [("a", ⟨"a", none, none, none, "pending", ⟨0⟩, none⟩)] "a"
    { status := some "authenticated" } 1000000 2000000
    ⟨"a", none, none, none, "pending", ⟨0⟩, none⟩ (by decide)

/-! ### Claim C7 -/

/-- Claim C7: an update on an id with no record responds with a 400
client error and leaves the store completely unchanged. -/
theorem update_not_found (s : Store) (p : String) (b : PartialDoc) (ns : Nat)
    (h : getKV s p = none) :
    (∃ m, (putRoute s p b ns).1 = .err 400 m) ∧
    (putRoute s p b ns).2 = s := by
  refine ⟨⟨"Could not update document with id=" ++ p ++ ". Not found.", ?_⟩, ?_⟩ <;>
    simp [putRoute, h]

/-- Witness for `update_not_found`: updating the missing id `"x"` in a
one-record store errors with 400 and leaves the store as it was. -/
theorem update_not_found_witness :
    (∃ m, (putRoute [("a", ⟨"a", none, none, none, "pending", ⟨0⟩, none⟩)] "x"
        { status := some "authenticated" } 0).1 = Resp.err 400 m) ∧
    (putRoute [("a", ⟨"a", none, none, none, "pending", ⟨0⟩, none⟩)] "x"
        { status := some "authenticated" } 0).2 =
      [("a", ⟨"a", none, none, none, "pending", ⟨0⟩, none⟩)] :=
  update_not_found [("a", ⟨"a", none, none, none, "pending", ⟨0⟩, none⟩)] "x"
    { status := some "authenticated" } 0 (by decide)

/-! ### Claim C8 -/

/-- Claim C8: deleting an existing id responds with the removed record
exactly as it was stored, removes it (a subsequent Get-by-id returns the
404 not-found error), and deleting a non-existent id responds with a 4xx
client error and leaves the store unchanged. -/
theorem delete_removes (s : Store) (p : String) (d : Document) (s0 : Store) (q : String)
    (h : getKV s p = some d) (h0 : getKV s0 q = none) :
    (deleteRoute s p).1 = .ok d ∧
    getKV (deleteRoute s p).2 p = none ∧
    (∃ m, getRoute (deleteRoute s p).2 p = .err 404 m) ∧
    (∃ m, deleteRoute s0 q = (.err 400 m, s0)) := by
  have h2 : (deleteRoute s p).2 = eraseKV s p := by
    simp [deleteRoute, removeKV, h]
  refine ⟨by simp [deleteRoute, removeKV, h], ?_, ?_, ?_⟩
  · rw [h2]
    exact getKV_eraseKV_self s p
  · rw [h2]
    exact ⟨"Document with id=" ++ p ++ " not found.",
      by simp [getRoute, getKV_eraseKV_self]⟩
  · exact ⟨"Could not delete document with id=" ++ q ++ ". Not found.",
      by simp [deleteRoute, removeKV, h0]⟩

/-- Witness for `delete_removes`: deleting the stored id `"a"` returns the
record and a following get is a 404; deleting the absent id `"b"` is a
400. -/
theorem delete_removes_witness :
    (deleteRoute [("a", ⟨"a", none, none, none, "pending", ⟨0⟩, none⟩)] "a").1 =
      Resp.ok ⟨"a", none, none, none, "pending", ⟨0⟩, none⟩ ∧
    getKV (deleteRoute [("a", ⟨"a", none, none, none, "pending", ⟨0⟩, none⟩)] "a").2 "a" =
      none ∧
    (∃ m, getRoute
        (deleteRoute [("a", ⟨"a", none, none, none, "pending", ⟨0⟩, none⟩)] "a").2 "a" =
      Resp.err 404 m) ∧
    (∃ m, deleteRoute [("a", ⟨"a", none, none, none, "pending", ⟨0⟩, none⟩)] "b" =
      (Resp.err 400 m, [("a", ⟨"a", none, none, none, "pending", ⟨0⟩, none⟩)])) :=
  delete_removes [("a", ⟨"a", none, none, none, "pending", ⟨0⟩, none⟩)] "a"
    ⟨"a", none, none, none, "pending", ⟨0⟩, none⟩
    [("a", ⟨"a", none, none, none, "pending", ⟨0⟩, none⟩)] "b"
    (by decide) (by decide)

/-! ### Claim C9 -/

/-- Claim C9: `getCurrentDate` derives the millisecond epoch value handed
to the `Date` constructor by dividing the clock's nanosecond reading by
exactly 1,000,000 (truncating), for every clock reading.  This is the
timestamp stored in `createdAt` and `updatedAt` by the create and update
handlers. -/
theorem timestamp_scale (ns : Nat) :
    (getCurrentDate ns).millis = ns / 1000000 ∧
    1000000 * (getCurrentDate ns).millis ≤ ns ∧
    ns < 1000000 * ((getCurrentDate ns).millis + 1) := by
  refine ⟨rfl, ?_, ?_⟩ <;> (simp only [getCurrentDate]; omega)

/-! ### Claim C10 -/

/-- Claim C10 (amended): a successful update inserts the merged record
under the *fetched record's* `id` field.  Whenever that field equals the
map key it was fetched by — the invariant state, maintained as long as no
update body has carried a different `id` — the key set of the store is
unchanged and only the value at the path id is replaced; and if the body
carries an `id` different from the path id, the record now stored at the
path key has an `id` field different from that key.  (The unconditional
"key set unchanged for every successful update" is refuted by
`update_frame_cex`: once a record's `id` field has diverged from its key,
a further successful update inserts under the divergent id and grows the
key set.) -/
theorem update_frame (s : Store) (p : String) (b : PartialDoc) (ns : Nat)
    (document : Document) (h : getKV s p = some document) (hid : document.id = p) :
    keys (putRoute s p b ns).2 = keys s ∧
    (∀ k, k ≠ p → getKV (putRoute s p b ns).2 k = getKV s k) ∧
    getKV (putRoute s p b ns).2 p =
      some { overlay document b with updatedAt := some (getCurrentDate ns) } ∧
    (∀ z, b.id = some z →
      ({ overlay document b with updatedAt := some (getCurrentDate ns) } : Document).id = z) := by
  have h2 : (putRoute s p b ns).2 =
      insertKV s p { overlay document b with updatedAt := some (getCurrentDate ns) } := by
    simp [putRoute, h, hid]
  refine ⟨?_, ?_, ?_, ?_⟩
  · rw [h2]
    exact keys_insertKV_of_mem s p _ (mem_keys_of_getKV s p document h)
  · intro k hk
    rw [h2]
    exact getKV_insertKV_ne s p k _ hk
  · rw [h2]
    exact getKV_insertKV_self s p _
  · intro z hz
    simp [overlay, hz]

/-- Witness for `update_frame`: an update whose body carries
`id := "z"` on the record stored at key `"a"` leaves the key set at
`["a"]` while the record stored there now has `id` field `"z"`. -/
theorem update_frame_witness :
    keys (putRoute [("a", ⟨"a", none, none, none, "pending", ⟨0⟩, none⟩)] "a"
        { id := some "z" } 0).2 =
      keys [("a", ⟨"a", none, none, none, "pending", ⟨0⟩, none⟩)] ∧
    ({ overlay ⟨"a", none, none, none, "pending", ⟨0⟩, none⟩ { id := some "z" } with
        updatedAt := some (getCurrentDate 0) } : Document).id = "z" :=
  ⟨(update_frame [("a", ⟨"a", none, none, none, "pending", ⟨0⟩, none⟩)] "a"
      { id := some "z" } 0 ⟨"a", none, none, none, "pending", ⟨0⟩, none⟩
      (by decide) (by decide)).1,
   (update_frame [("a", ⟨"a", none, none, none, "pending", ⟨0⟩, none⟩)] "a"
      { id := some "z" } 0 ⟨"a", none, none, none, "pending", ⟨0⟩, none⟩
      (by decide) (by decide)).2.2.2 "z" rfl⟩

/-- Counterexample to Claim C10 as stated: create id `"a"`, update it with
body `id := "z"`, then update id `"a"` again — the second successful
update grows the key set from `["a"]` to `["a", "z"]`. -/
theorem update_frame_cex :
    keys (putRoute (putRoute (postRoute [] "a" 0 {}).2 "a" { id := some "z" } 0).2
        "a" {} 0).2 ≠
      keys (putRoute (postRoute [] "a" 0 {}).2 "a" { id := some "z" } 0).2 := by
  decide

end DocVerify
